import Mathlib

/-!
Verification of the cross-thread callback-suspension bridge of
measurement-kit-node (`src/include/private/node/uv_async_ctx.hpp`,
`src/include/private/node/async.hpp`, `src/src/addon.cc`).

We shallowly embed the bridge: the pending queue of suspended closures, the
self reference that keeps the object alive for libuv, the wake handle
registration, and the suspend / resume / start_delete / finish_delete
operations.  libuv return codes are modelled as `Int` (nonzero means failure,
exactly as the C code tests them), and C++ `throw` is modelled as
`Except.error` carrying the state of the object at the moment of the throw.
-/

namespace MKNode

/-- A closure stored in the `suspended` list.  Ordinary closures handed to
`suspend` by MK callbacks are identified by a number; the one special closure
enqueued by `start_delete` (whose body calls `uv_close(..., mkuv_delete)`) is
`unregister`. -/
inductive Closure where
  | user (id : Nat)
  | unregister
deriving DecidableEq, Repr

namespace UvAsyncCtx

/-- State of one `UvAsyncCtx` object (uv_async_ctx.hpp).
`suspended` is the `std::list<std::function<void()>> suspended` field;
`draining` is the local `functions` list that `resume` swaps the queue into
(empty outside a `resume` invocation); `executed` is the log, in order, of the
closures that have been run on the loop thread; `selfref` is whether the
`self` shared-pointer field is non-null; `registered` is whether the
`uv_async_t` handle is registered with libuv (from `uv_async_init` until
`uv_close` runs); `closeDone` is whether the `uv_close` call inside the
unregister closure has been made; `finished` is whether libuv has invoked
`finish_delete`. -/
structure BridgeState where
  suspended : List Closure
  draining : List Closure
  executed : List Closure
  selfref : Bool
  registered : Bool
  closeDone : Bool
  finished : Bool
deriving DecidableEq, Repr

/-- The state of a bridge freshly returned by a successful `make()`:
empty queue, self reference set, wake handle registered. -/
def initBridge : BridgeState :=
  { suspended := [], draining := [], executed := [],
    selfref := true, registered := true, closeDone := false, finished := false }

/-- Model of `UvAsyncCtx::make` (uv_async_ctx.hpp:92-100).  The code first
sets `self->self = self` (the self reference) and `self->async.data`, then
calls `uv_async_init`; if the return value is nonzero it throws
`std::runtime_error("uv_async_init")`.  `initRet` is the `uv_async_init`
return value; on a throw the `Except.error` payload is the state the
abandoned allocation is left in. -/
def make (initRet : Int) : Except BridgeState BridgeState :=
  let self : BridgeState :=
    { suspended := [], draining := [], executed := [],
      selfref := true, registered := false, closeDone := false, finished := false }
  if initRet ≠ 0 then Except.error self
  else Except.ok { self with registered := true }

/-- Model of `UvAsyncCtx::suspend` (uv_async_ctx.hpp:108-115).  Under the
(recursive) mutex the code does `suspended.push_back(std::move(func))` and
then calls `uv_async_send`; a nonzero return makes it throw
`std::runtime_error("uv_async_send")`.  Note that the push_back happens
before the send, so on a send failure the closure is already appended; the
`Except.error` payload records that state. -/
def suspend (st : BridgeState) (c : Closure) (sendRet : Int) :
    Except BridgeState BridgeState :=
  let st' := { st with suspended := st.suspended ++ [c] }
  if sendRet ≠ 0 then Except.error st' else Except.ok st'

/-- Model of `UvAsyncCtx::start_delete` (uv_async_ctx.hpp:140-144): it just
calls `suspend` with the closure that will run `uv_close(..., mkuv_delete)`
on the loop thread, i.e. it enqueues `Closure.unregister`. -/
def start_delete (st : BridgeState) (sendRet : Int) :
    Except BridgeState BridgeState :=
  suspend st Closure.unregister sendRet

/-- Model of `UvAsyncCtx::finish_delete` (uv_async_ctx.hpp:148-153), the
`uv_close` completion callback: it clears the self reference
(`self->self = nullptr`). -/
def finish_delete (st : BridgeState) : BridgeState :=
  { st with selfref := false, finished := true }

/-- The closures that a drained closure enqueues by calling `suspend` from
inside its own body while `resume` is running it (nested suspends).  A plain
user closure `user id` performs the nested suspends `nested id`; the
unregister closure only calls `uv_close` and never suspends. -/
def nestedEnq (nested : Nat → List Closure) : Closure → List Closure
  | Closure.user id => nested id
  | Closure.unregister => []

/-- Effect of executing one drained closure `fn()` inside `resume`'s loop:
it is appended to the execution log; a user closure additionally appends its
nested suspends to the (already swapped-out, hence empty-or-refilling)
`suspended` queue, and the unregister closure calls `uv_close`, which
unregisters the handle and schedules `finish_delete`. -/
def runClosure (nested : Nat → List Closure) (st : BridgeState) (c : Closure) :
    BridgeState :=
  match c with
  | Closure.user id =>
      { st with executed := st.executed ++ [Closure.user id],
                suspended := st.suspended ++ nested id }
  | Closure.unregister =>
      { st with executed := st.executed ++ [Closure.unregister],
                registered := false, closeDone := true }

/-- Model of `UvAsyncCtx::resume` (uv_async_ctx.hpp:124-135), and of the
identically-shaped `mkuv_resume` (async.hpp:179-192) and `Runner::Resume`
(addon.cc:61-70): under the mutex it swaps `suspended` with the empty local
list `functions`, releases the mutex, and then runs every drained closure in
order. -/
def resume (st : BridgeState) (nested : Nat → List Closure) : BridgeState :=
  let functions := st.suspended
  let st' := { st with suspended := [] }
  functions.foldl (runClosure nested) st'

/-- Observer: did the `Except`-modelled operation throw? -/
def isThrow (r : Except BridgeState BridgeState) : Bool :=
  match r with
  | Except.error _ => true
  | Except.ok _ => false

/-- Observer: the `selfref` field of the state carried by a throw (false if
the operation did not throw). -/
def errSelfref (r : Except BridgeState BridgeState) : Bool :=
  match r with
  | Except.error e => e.selfref
  | Except.ok _ => false

end UvAsyncCtx

end MKNode

namespace MKNode
namespace UvAsyncCtx

theorem foldl_runClosure (nested : Nat → List Closure) (fns : List Closure)
    (st : BridgeState) :
    (fns.foldl (runClosure nested) st).executed = st.executed ++ fns
    ∧ (fns.foldl (runClosure nested) st).suspended
        = st.suspended ++ fns.flatMap (nestedEnq nested) := by
  induction fns generalizing st with
  | nil => simp
  | cons c rest ih =>
    cases c with
    | user i =>
      have h := ih (runClosure nested st (Closure.user i))
      simp only [List.foldl_cons] at *
      simp [runClosure, nestedEnq, List.append_assoc] at h ⊢
      exact ⟨h.1, h.2⟩
    | unregister =>
      have h := ih (runClosure nested st Closure.unregister)
      simp only [List.foldl_cons] at *
      simp [runClosure, nestedEnq, List.append_assoc] at h ⊢
      exact ⟨h.1, h.2⟩

/-- An atomic event of an execution of the bridge.  The recursive mutex
serializes all queue mutations, so each of these is atomic in the real
program: `suspendOp c` is a (successful) `suspend` call appending `c` — when
a draining closure calls `suspend` from inside `resume`, that nested call is
simply a `suspendOp` event occurring between two `execOp` events; `swapOp`
is the locked swap at the start of a `resume` invocation; `execOp` runs the
next closure of the current drained batch; `finishOp` is libuv invoking
`finish_delete` after the `uv_close` issued by the unregister closure has
completed. -/
inductive Op where
  | suspendOp (c : Closure)
  | swapOp
  | execOp
  | finishOp
deriving DecidableEq, Repr

/-- Which events the environment can produce in a given state.  Worker
threads may call `suspend` at any time.  The loop thread is single, so a new
`resume` invocation (`swapOp`) starts only when the previous batch is fully
drained, and `execOp` needs a non-empty batch.  libuv invokes the close
callback (`finishOp`) only after `uv_close` was called — i.e. after the
unregister closure ran — and invokes it exactly once. -/
def enabled (st : BridgeState) : Op → Bool
  | Op.suspendOp _ => true
  | Op.swapOp => st.draining.isEmpty
  | Op.execOp => !st.draining.isEmpty
  | Op.finishOp => st.closeDone && !st.finished

/-- Effect of one event on the bridge state, following `suspend` (append to
the queue), `resume` (swap, then run the drained closures one by one; running
the unregister closure performs `uv_close`) and `finish_delete` (clear the
self reference). -/
def applyOp (st : BridgeState) : Op → BridgeState
  | Op.suspendOp c => { st with suspended := st.suspended ++ [c] }
  | Op.swapOp => { st with draining := st.suspended, suspended := [] }
  | Op.execOp =>
      match st.draining with
      | [] => st
      | c :: rest =>
          match c with
          | Closure.user i =>
              { st with draining := rest,
                        executed := st.executed ++ [Closure.user i] }
          | Closure.unregister =>
              { st with draining := rest,
                        executed := st.executed ++ [Closure.unregister],
                        registered := false, closeDone := true }
  | Op.finishOp => { st with selfref := false, finished := true }

/-- A trace is valid when every event is enabled in the state it fires in. -/
def validTrace (st : BridgeState) : List Op → Bool
  | [] => true
  | op :: rest => enabled st op && validTrace (applyOp st op) rest

/-- Run a trace of events from a state. -/
def runOps (st : BridgeState) : List Op → BridgeState
  | [] => st
  | op :: rest => runOps (applyOp st op) rest

/-- The closures enqueued along a trace, in the order in which their
`suspend` calls acquired the guard. -/
def enqueuedClosures : List Op → List Closure
  | [] => []
  | Op.suspendOp c :: rest => c :: enqueuedClosures rest
  | Op.swapOp :: rest => enqueuedClosures rest
  | Op.execOp :: rest => enqueuedClosures rest
  | Op.finishOp :: rest => enqueuedClosures rest

/-- Concatenated view of where every enqueued closure currently lives:
already executed, in the batch being drained, or still waiting in the
queue. -/
def queueView (st : BridgeState) : List Closure :=
  st.executed ++ st.draining ++ st.suspended

theorem queueView_applyOp (st : BridgeState) (op : Op)
    (h : enabled st op = true) :
    queueView (applyOp st op) = queueView st ++ enqueuedClosures [op] := by
  cases op with
  | suspendOp c => simp [applyOp, queueView, enqueuedClosures]
  | swapOp =>
      have hd : st.draining = [] := by
        simpa [enabled, List.isEmpty_iff] using h
      simp [applyOp, queueView, enqueuedClosures, hd]
  | execOp =>
      cases hd : st.draining with
      | nil => simp [enabled, hd] at h
      | cons c rest =>
          cases c with
          | user i => simp [applyOp, queueView, enqueuedClosures, hd]
          | unregister => simp [applyOp, queueView, enqueuedClosures, hd]
  | finishOp => simp [applyOp, queueView, enqueuedClosures]

theorem queueView_runOps (ops : List Op) (st : BridgeState)
    (h : validTrace st ops = true) :
    queueView (runOps st ops) = queueView st ++ enqueuedClosures ops := by
  induction ops generalizing st with
  | nil => simp [runOps, enqueuedClosures]
  | cons op rest ih =>
      rw [validTrace, Bool.and_eq_true] at h
      have step := queueView_applyOp st op h.1
      have tail := ih (applyOp st op) h.2
      rw [runOps, tail, step]
      cases op <;> simp [enqueuedClosures]

/-- Lifecycle facts preserved by every enabled event: once `uv_close` was
called, the unregister closure is in the execution log; `finish_delete`
presupposes `uv_close`; and a cleared self reference presupposes
`finish_delete`. -/
def lifecycleInv (st : BridgeState) : Prop :=
  (st.closeDone = true → Closure.unregister ∈ st.executed)
  ∧ (st.finished = true → st.closeDone = true)
  ∧ (st.selfref = false → st.finished = true)

theorem lifecycleInv_applyOp (st : BridgeState) (op : Op)
    (h : enabled st op = true) (hi : lifecycleInv st) :
    lifecycleInv (applyOp st op) := by
  obtain ⟨h1, h2, h3⟩ := hi
  cases op with
  | suspendOp c =>
      exact ⟨fun hc => h1 hc, h2, h3⟩
  | swapOp =>
      exact ⟨fun hc => h1 hc, h2, h3⟩
  | execOp =>
      cases hd : st.draining with
      | nil =>
          have he : applyOp st Op.execOp = st := by simp [applyOp, hd]
          rw [he]; exact ⟨h1, h2, h3⟩
      | cons c rest =>
          cases c with
          | user i =>
              have he : applyOp st Op.execOp =
                  { st with draining := rest,
                            executed := st.executed ++ [Closure.user i] } := by
                simp [applyOp, hd]
              rw [he]
              exact ⟨fun hc => List.mem_append_left _ (h1 hc), h2, h3⟩
          | unregister =>
              have he : applyOp st Op.execOp =
                  { st with draining := rest,
                            executed := st.executed ++ [Closure.unregister],
                            registered := false, closeDone := true } := by
                simp [applyOp, hd]
              rw [he]
              exact ⟨fun _ => List.mem_append_right _ (by simp), fun _ => rfl, h3⟩
  | finishOp =>
      rw [enabled, Bool.and_eq_true] at h
      refine ⟨fun hc => h1 (by simpa [applyOp] using hc), fun _ => ?_, fun _ => ?_⟩
      · simpa [applyOp] using h.1
      · simp [applyOp]

theorem lifecycleInv_runOps (ops : List Op) (st : BridgeState)
    (h : validTrace st ops = true) (hi : lifecycleInv st) :
    lifecycleInv (runOps st ops) := by
  induction ops generalizing st with
  | nil => simpa [runOps] using hi
  | cons op rest ih =>
      rw [validTrace, Bool.and_eq_true] at h
      exact ih (applyOp st op) h.2 (lifecycleInv_applyOp st op h.1 hi)

theorem selfref_applyOp_eq (st : BridgeState) (op : Op) (hne : op ≠ Op.finishOp) :
    (applyOp st op).selfref = st.selfref := by
  cases op with
  | suspendOp c => rfl
  | swapOp => rfl
  | execOp =>
      cases hd : st.draining with
      | nil => simp [applyOp, hd]
      | cons c rest => cases c <;> simp [applyOp, hd]
  | finishOp => exact absurd rfl hne

theorem selfref_false_mono (ops : List Op) (st : BridgeState)
    (h : st.selfref = false) : (runOps st ops).selfref = false := by
  induction ops generalizing st with
  | nil => simpa [runOps] using h
  | cons op rest ih =>
      rw [runOps]
      refine ih (applyOp st op) ?_
      by_cases hop : op = Op.finishOp
      · subst hop; simp [applyOp]
      · rw [selfref_applyOp_eq st op hop]; exact h

theorem selfref_true_of_no_finish (ops : List Op) (st : BridgeState)
    (hs : st.selfref = true) (hm : Op.finishOp ∉ ops) :
    (runOps st ops).selfref = true := by
  induction ops generalizing st with
  | nil => simpa [runOps] using hs
  | cons op rest ih =>
      rw [runOps]
      have hop : op ≠ Op.finishOp := fun he => hm (he ▸ List.mem_cons_self op rest)
      refine ih (applyOp st op) ?_ fun hr => hm (List.mem_cons_of_mem op hr)
      rw [selfref_applyOp_eq st op hop]; exact hs

theorem selfref_false_of_finish_mem (ops : List Op) (st : BridgeState)
    (hm : Op.finishOp ∈ ops) : (runOps st ops).selfref = false := by
  induction ops generalizing st with
  | nil => exact absurd hm (List.not_mem_nil _)
  | cons op rest ih =>
      rw [runOps]
      by_cases hop : op = Op.finishOp
      · subst hop
        exact selfref_false_mono rest (applyOp st Op.finishOp) (by simp [applyOp])
      · rcases List.mem_cons.mp hm with he | hr
        · exact absurd he.symm hop
        · exact ih (applyOp st op) hr

theorem finished_applyOp_of_finished (st : BridgeState) (op : Op)
    (h : st.finished = true) : (applyOp st op).finished = true := by
  cases op with
  | suspendOp c => exact h
  | swapOp => exact h
  | execOp =>
      cases hd : st.draining with
      | nil => simpa [applyOp, hd] using h
      | cons c rest => cases c <;> simpa [applyOp, hd] using h
  | finishOp => simp [applyOp]

theorem no_finishOp_of_finished (ops : List Op) (st : BridgeState)
    (h : validTrace st ops = true) (hf : st.finished = true) :
    Op.finishOp ∉ ops := by
  induction ops generalizing st with
  | nil => exact List.not_mem_nil _
  | cons op rest ih =>
      rw [validTrace, Bool.and_eq_true] at h
      intro hm
      rcases List.mem_cons.mp hm with he | hr
      · subst he
        simp [enabled, hf] at h
      · exact ih (applyOp st op) h.2 (finished_applyOp_of_finished st op hf) hr

theorem count_finishOp_le_one (ops : List Op) (st : BridgeState)
    (h : validTrace st ops = true) (hf : st.finished = false) :
    ops.count Op.finishOp ≤ 1 := by
  induction ops generalizing st with
  | nil => simp
  | cons op rest ih =>
      rw [validTrace, Bool.and_eq_true] at h
      by_cases hop : op = Op.finishOp
      · subst hop
        have hrest : Op.finishOp ∉ rest :=
          no_finishOp_of_finished rest (applyOp st Op.finishOp) h.2 (by simp [applyOp])
        have : rest.count Op.finishOp = 0 := List.count_eq_zero.mpr hrest
        simp [List.count_cons, this]
      · have hf' : (applyOp st op).finished = false := by
          cases op with
          | suspendOp c => exact hf
          | swapOp => exact hf
          | execOp =>
              cases hd : st.draining with
              | nil => simpa [applyOp, hd] using hf
              | cons c rest2 => cases c <;> simpa [applyOp, hd] using hf
          | finishOp => exact absurd rfl hop
        have := ih (applyOp st op) h.2 hf'
        simpa [List.count_cons, hop] using this

/-- C2: a single `resume` invocation swaps the queue with an empty one, then
executes exactly the closures that were enqueued before the swap, in enqueue
order, before returning; closures enqueued by nested `suspend` calls made
from within a draining closure are not executed during this invocation but
remain queued (third conjunct: a subsequent `resume` executes them). -/
theorem resume_drains_swapped_queue (st : BridgeState)
    (nested nested2 : Nat → List Closure) :
    (resume st nested).executed = st.executed ++ st.suspended
    ∧ (resume st nested).suspended = st.suspended.flatMap (nestedEnq nested)
    ∧ (resume (resume st nested) nested2).executed
        = (st.executed ++ st.suspended) ++ st.suspended.flatMap (nestedEnq nested) := by
  have h1 := foldl_runClosure nested st.suspended { st with suspended := [] }
  have h2 := foldl_runClosure nested2 (resume st nested).suspended
      { resume st nested with suspended := [] }
  refine ⟨by simpa [resume] using h1.1, by simpa [resume] using h1.2, ?_⟩
  show (resume (resume st nested) nested2).executed = _
  have e1 : (resume st nested).executed = st.executed ++ st.suspended := by
    simpa [resume] using h1.1
  have e2 : (resume st nested).suspended = st.suspended.flatMap (nestedEnq nested) := by
    simpa [resume] using h1.2
  calc (resume (resume st nested) nested2).executed
      = (resume st nested).executed ++ (resume st nested).suspended := by
        simpa [resume] using h2.1
    _ = (st.executed ++ st.suspended) ++ st.suspended.flatMap (nestedEnq nested) := by
        rw [e1, e2]

theorem executed_partition_enqueued (ops : List Op)
    (h : validTrace initBridge ops = true) :
    (runOps initBridge ops).executed
        ++ (runOps initBridge ops).draining
        ++ (runOps initBridge ops).suspended
      = enqueuedClosures ops
    ∧ (runOps initBridge ops).executed <+: enqueuedClosures ops := by
  have hq := queueView_runOps ops initBridge h
  have hq' : (runOps initBridge ops).executed
      ++ (runOps initBridge ops).draining
      ++ (runOps initBridge ops).suspended = enqueuedClosures ops := by
    simpa [queueView, initBridge] using hq
  refine ⟨hq', ⟨(runOps initBridge ops).draining ++ (runOps initBridge ops).suspended, ?_⟩⟩
  rw [← List.append_assoc]
  exact hq'

/-- C1: along every valid execution (suspend calls in guard-acquisition
order, resume drains, teardown steps), the executed log, the batch being
drained and the still-pending queue partition the enqueued closures in
enqueue order — so each enqueued closure is executed at most once and never
out of order, execution happens only through resume's drain steps, and a
closure not yet executed is still sitting in the drain batch or the queue,
i.e. it can only remain unexecuted if no further resume occurs. -/
theorem claim1_fifo_exactly_once (ops : List Op)
    (h : validTrace initBridge ops = true) :
    (runOps initBridge ops).executed
        ++ (runOps initBridge ops).draining
        ++ (runOps initBridge ops).suspended
      = enqueuedClosures ops
    ∧ (runOps initBridge ops).executed <+: enqueuedClosures ops :=
  executed_partition_enqueued ops h

theorem claim1_fifo_exactly_once_witness :
    validTrace initBridge
        [Op.suspendOp (Closure.user 0), Op.suspendOp (Closure.user 1),
         Op.swapOp, Op.execOp, Op.suspendOp (Closure.user 2), Op.execOp] = true
    ∧ ((runOps initBridge
          [Op.suspendOp (Closure.user 0), Op.suspendOp (Closure.user 1),
           Op.swapOp, Op.execOp, Op.suspendOp (Closure.user 2), Op.execOp]).executed
        ++ (runOps initBridge
          [Op.suspendOp (Closure.user 0), Op.suspendOp (Closure.user 1),
           Op.swapOp, Op.execOp, Op.suspendOp (Closure.user 2), Op.execOp]).draining
        ++ (runOps initBridge
          [Op.suspendOp (Closure.user 0), Op.suspendOp (Closure.user 1),
           Op.swapOp, Op.execOp, Op.suspendOp (Closure.user 2), Op.execOp]).suspended
      = enqueuedClosures
          [Op.suspendOp (Closure.user 0), Op.suspendOp (Closure.user 1),
           Op.swapOp, Op.execOp, Op.suspendOp (Closure.user 2), Op.execOp]
      ∧ (runOps initBridge
          [Op.suspendOp (Closure.user 0), Op.suspendOp (Closure.user 1),
           Op.swapOp, Op.execOp, Op.suspendOp (Closure.user 2), Op.execOp]).executed
        <+: enqueuedClosures
          [Op.suspendOp (Closure.user 0), Op.suspendOp (Closure.user 1),
           Op.swapOp, Op.execOp, Op.suspendOp (Closure.user 2), Op.execOp]) :=
  ⟨by decide, claim1_fifo_exactly_once _ (by decide)⟩

/-- C3: if the trace enqueues the unregister closure (the one `start_delete`
suspends) after the closures `E1`, then whenever the unregister closure has
executed, all of `E1` was executed before it (first conjunct: `E1` followed
by the unregister closure is a prefix of the execution log); and
`finish_delete` (which is what clears the self reference) never fires before
the unregister closure has run to completion (second and third conjuncts). -/
theorem claim3_teardown_ordering (ops : List Op) (E1 E2 : List Closure)
    (h : validTrace initBridge ops = true)
    (hE : enqueuedClosures ops = E1 ++ Closure.unregister :: E2)
    (hE1 : Closure.unregister ∉ E1) :
    (Closure.unregister ∈ (runOps initBridge ops).executed →
        E1 ++ [Closure.unregister] <+: (runOps initBridge ops).executed)
    ∧ ((runOps initBridge ops).finished = true →
        Closure.unregister ∈ (runOps initBridge ops).executed)
    ∧ ((runOps initBridge ops).selfref = false →
        Closure.unregister ∈ (runOps initBridge ops).executed) := by
  have hq' := (executed_partition_enqueued ops h).1
  have hpre : (runOps initBridge ops).executed <+: enqueuedClosures ops :=
    (executed_partition_enqueued ops h).2
  have hinv := lifecycleInv_runOps ops initBridge h
    ⟨fun hc => by simp [initBridge] at hc,
     fun hf => by simp [initBridge] at hf,
     fun hs => by simp [initBridge] at hs⟩
  obtain ⟨i1, i2, i3⟩ := hinv
  refine ⟨?_, fun hf => i1 (i2 hf), fun hs => i1 (i2 (i3 hs))⟩
  intro hmem
  have hE1p : E1 ++ [Closure.unregister] <+: enqueuedClosures ops := by
    rw [hE]
    exact ⟨E2, by simp⟩
  have hlen : (E1 ++ [Closure.unregister]).length
      ≤ (runOps initBridge ops).executed.length := by
    by_contra hlt
    push_neg at hlt
    have hle : (runOps initBridge ops).executed.length ≤ E1.length := by
      have := hlt
      simp only [List.length_append, List.length_cons, List.length_nil] at this
      omega
    have hexE1 : (runOps initBridge ops).executed <+: E1 :=
      List.prefix_of_prefix_length_le hpre ⟨Closure.unregister :: E2, hE.symm⟩ hle
    exact hE1 (hexE1.subset hmem)
  exact List.prefix_of_prefix_length_le hE1p hpre hlen

theorem claim3_teardown_ordering_witness :
    validTrace initBridge
        [Op.suspendOp (Closure.user 0), Op.suspendOp Closure.unregister,
         Op.swapOp, Op.execOp, Op.execOp, Op.finishOp] = true
    ∧ enqueuedClosures
        [Op.suspendOp (Closure.user 0), Op.suspendOp Closure.unregister,
         Op.swapOp, Op.execOp, Op.execOp, Op.finishOp]
      = [Closure.user 0] ++ Closure.unregister :: []
    ∧ Closure.unregister ∉ [Closure.user 0]
    ∧ ((Closure.unregister ∈ (runOps initBridge
          [Op.suspendOp (Closure.user 0), Op.suspendOp Closure.unregister,
           Op.swapOp, Op.execOp, Op.execOp, Op.finishOp]).executed →
        [Closure.user 0] ++ [Closure.unregister] <+: (runOps initBridge
          [Op.suspendOp (Closure.user 0), Op.suspendOp Closure.unregister,
           Op.swapOp, Op.execOp, Op.execOp, Op.finishOp]).executed)
      ∧ ((runOps initBridge
          [Op.suspendOp (Closure.user 0), Op.suspendOp Closure.unregister,
           Op.swapOp, Op.execOp, Op.execOp, Op.finishOp]).finished = true →
        Closure.unregister ∈ (runOps initBridge
          [Op.suspendOp (Closure.user 0), Op.suspendOp Closure.unregister,
           Op.swapOp, Op.execOp, Op.execOp, Op.finishOp]).executed)
      ∧ ((runOps initBridge
          [Op.suspendOp (Closure.user 0), Op.suspendOp Closure.unregister,
           Op.swapOp, Op.execOp, Op.execOp, Op.finishOp]).selfref = false →
        Closure.unregister ∈ (runOps initBridge
          [Op.suspendOp (Closure.user 0), Op.suspendOp Closure.unregister,
           Op.swapOp, Op.execOp, Op.execOp, Op.finishOp]).executed)) :=
  ⟨by decide, by decide, by decide,
   claim3_teardown_ordering _ [Closure.user 0] [] (by decide) (by decide) (by decide)⟩

/-- C4: starting from the state a successful `make` returns (first conjunct
ties `initBridge` to `make`), the self reference is non-null as long as no
`finish_delete` event occurred, it is null as soon as one did, and a valid
trace contains at most one `finish_delete` event — so only `finish_delete`
clears the self reference, and it clears it exactly once. -/
theorem claim4_selfref_lifecycle (ops : List Op)
    (h : validTrace initBridge ops = true) :
    make 0 = Except.ok initBridge
    ∧ ((runOps initBridge ops).selfref = false ↔ Op.finishOp ∈ ops)
    ∧ ops.count Op.finishOp ≤ 1 := by
  refine ⟨rfl, ⟨fun hs => ?_, fun hm => selfref_false_of_finish_mem ops initBridge hm⟩,
    count_finishOp_le_one ops initBridge h rfl⟩
  by_contra hm
  have ht := selfref_true_of_no_finish ops initBridge rfl hm
  rw [ht] at hs
  exact absurd hs (by decide)

theorem claim4_selfref_lifecycle_witness :
    validTrace initBridge
        [Op.suspendOp Closure.unregister, Op.swapOp, Op.execOp, Op.finishOp] = true
    ∧ (make 0 = Except.ok initBridge
      ∧ ((runOps initBridge
            [Op.suspendOp Closure.unregister, Op.swapOp, Op.execOp,
             Op.finishOp]).selfref = false
          ↔ Op.finishOp ∈
            [Op.suspendOp Closure.unregister, Op.swapOp, Op.execOp, Op.finishOp])
      ∧ [Op.suspendOp Closure.unregister, Op.swapOp, Op.execOp,
         Op.finishOp].count Op.finishOp ≤ 1) :=
  ⟨by decide, claim4_selfref_lifecycle _ (by decide)⟩

/-- C5 counterexample: when `uv_async_init` fails (return value 1), `make`
does throw — but the self reference set during construction is left set in
the abandoned allocation, not unwound as the claim states. -/
theorem claim5_counterexample :
    isThrow (make 1) = true ∧ errSelfref (make 1) = true := by decide

/-- C5 (amended): if wake-handle registration fails during `make`, the
operation throws without returning a bridge; however the self reference
established during construction is not unwound — the abandoned allocation is
left with `selfref` set (and the handle unregistered). -/
theorem claim5_make_failure (r : Int) (h : r ≠ 0) :
    make r = Except.error
      { suspended := [], draining := [], executed := [],
        selfref := true, registered := false, closeDone := false,
        finished := false } := by
  simp [make, h]

theorem claim5_make_failure_witness :
    (1 : Int) ≠ 0
    ∧ make 1 = Except.error
      { suspended := [], draining := [], executed := [],
        selfref := true, registered := false, closeDone := false,
        finished := false } :=
  ⟨by decide, claim5_make_failure 1 (by decide)⟩

/-- C7: `suspend` throws exactly when `uv_async_send` returns nonzero — the
failure is surfaced as a thrown error (a single attempt, never retried nor
swallowed) — and on a zero return it returns normally with the closure
appended. -/
theorem claim7_suspend_error_iff (st : BridgeState) (c : Closure) (r : Int) :
    (isThrow (suspend st c r) = true ↔ r ≠ 0)
    ∧ suspend st c 0
        = Except.ok { st with suspended := st.suspended ++ [c] } := by
  constructor
  · by_cases hr : r = 0 <;> simp [suspend, isThrow, hr]
  · simp [suspend]

theorem claim7_suspend_error_iff_witness :
    (isThrow (suspend initBridge (Closure.user 0) 1) = true ↔ (1 : Int) ≠ 0)
    ∧ suspend initBridge (Closure.user 0) 0
        = Except.ok { initBridge with
            suspended := initBridge.suspended ++ [Closure.user 0] } :=
  claim7_suspend_error_iff initBridge (Closure.user 0) 1

end UvAsyncCtx

/-- The elementary actions a suspend call performs, used to state in which
order `UvAsyncCtx::suspend` and `Runner::SuspendOn` do them. -/
inductive SuspendStep where
  | acquireGuard
  | appendClosure
  | signalWake
  | releaseGuard
deriving DecidableEq, Repr

/-- Micro state observed by one suspend call: whether the calling thread
holds the guard, the pending queue, and whether the wake handle has been
signalled. -/
structure MicroState where
  guardHeld : Bool
  queue : List Closure
  signaled : Bool
deriving DecidableEq, Repr

/-- Effect of one elementary suspend action on the micro state. -/
def microStep (c : Closure) (s : MicroState) : SuspendStep → MicroState
  | SuspendStep.acquireGuard => { s with guardHeld := true }
  | SuspendStep.appendClosure => { s with queue := s.queue ++ [c] }
  | SuspendStep.signalWake => { s with signaled := true }
  | SuspendStep.releaseGuard => { s with guardHeld := false }

/-- Run a list of elementary suspend actions. -/
def microRun (c : Closure) (s : MicroState) : List SuspendStep → MicroState
  | [] => s
  | step :: rest => microRun c (microStep c s step) rest

/-- Whether the guard is held at the moment the `signalWake` action fires
(scanning the action list while tracking the guard). -/
def guardHeldAtSignal : List SuspendStep → Bool → Bool
  | [], _ => false
  | SuspendStep.signalWake :: _, g => g
  | SuspendStep.acquireGuard :: rest, _ => guardHeldAtSignal rest true
  | SuspendStep.releaseGuard :: rest, _ => guardHeldAtSignal rest false
  | SuspendStep.appendClosure :: rest, g => guardHeldAtSignal rest g

/-- Action order of `UvAsyncCtx::suspend` (uv_async_ctx.hpp:108-115) and of
`mk::node::async::suspend` (async.hpp:147-154): construct the
`std::unique_lock`, run `suspended.push_back(std::move(func))`, call
`uv_async_send`, and release the lock only at scope exit. -/
def suspendSteps : List SuspendStep :=
  [SuspendStep.acquireGuard, SuspendStep.appendClosure,
   SuspendStep.signalWake, SuspendStep.releaseGuard]

/-- Action order of `Runner::SuspendOn` (addon.cc:272-278): construct the
`std::unique_lock`, call `uv_async_send`, run
`suspended.push_back(std::move(func))`, and release the lock at scope
exit. -/
def suspendOnSteps : List SuspendStep :=
  [SuspendStep.acquireGuard, SuspendStep.signalWake,
   SuspendStep.appendClosure, SuspendStep.releaseGuard]

/-- Modelled from the spec: the action order C6 claims — acquire the guard,
append the closure, release the guard, and only then signal the wake
handle. -/
def claimedSuspendSteps : List SuspendStep :=
  [SuspendStep.acquireGuard, SuspendStep.appendClosure,
   SuspendStep.releaseGuard, SuspendStep.signalWake]

/-- C6 counterexample: both suspend implementations issue the wake signal
while the guard is still held — not after releasing it as claimed — and
`Runner::SuspendOn` even signals before the append. -/
theorem claim6_counterexample :
    suspendSteps ≠ claimedSuspendSteps
    ∧ suspendOnSteps ≠ claimedSuspendSteps
    ∧ guardHeldAtSignal suspendSteps false = true
    ∧ guardHeldAtSignal claimedSuspendSteps false = false
    ∧ List.indexOf SuspendStep.signalWake suspendOnSteps
        < List.indexOf SuspendStep.appendClosure suspendOnSteps := by
  decide

/-- C6 (amended): `UvAsyncCtx::suspend` acquires the guard, appends the
closure to the pending queue, then signals the wake handle while still
holding the guard, and releases the guard only after the signal;
`Runner::SuspendOn` also signals while holding the guard but before the
append.  Either way, a suspend call that starts without the guard appends
exactly its closure, signals the wake handle, and ends with the guard
released. -/
theorem claim6_suspend_order (c : Closure) (q : List Closure) :
    guardHeldAtSignal suspendSteps false = true
    ∧ guardHeldAtSignal suspendOnSteps false = true
    ∧ List.indexOf SuspendStep.appendClosure suspendSteps
        < List.indexOf SuspendStep.signalWake suspendSteps
    ∧ List.indexOf SuspendStep.signalWake suspendOnSteps
        < List.indexOf SuspendStep.appendClosure suspendOnSteps
    ∧ microRun c { guardHeld := false, queue := q, signaled := false } suspendSteps
        = { guardHeld := false, queue := q ++ [c], signaled := true }
    ∧ microRun c { guardHeld := false, queue := q, signaled := false } suspendOnSteps
        = { guardHeld := false, queue := q ++ [c], signaled := true } := by
  refine ⟨by decide, by decide, by decide, by decide, ?_, ?_⟩ <;>
    simp [microRun, microStep, suspendSteps, suspendOnSteps]

namespace Runner

/-- State of a `Runner` object (addon.cc): whether the `selfref` field is
set, whether `async.data` has been bound to the object, whether the async
handle is registered with libuv, and the suspended-closures list. -/
structure RunnerState where
  selfref : Bool
  asyncDataBound : Bool
  registered : Bool
  suspended : List Closure
deriving DecidableEq, Repr

/-- The two exceptions the registration phase of `Runner::RunOrStart` can
throw. -/
inductive RunnerErr where
  | alreadySelfref
  | uvAsyncInitFailed
deriving DecidableEq, Repr

/-- Model of the registration phase of `Runner::RunOrStart`
(addon.cc:76-90): under the mutex it first checks `if (!!self->selfref)
throw std::runtime_error("already_selfref")`, and only past that check binds
`async.data`, sets the self reference and calls `uv_async_init` (throwing on
a nonzero return).  The `Except.error` payload carries the state at the
moment of the throw.  (The remainder of RunOrStart — wiring `on_destroy` and
the user callbacks and starting the nettest — runs after this phase and is
not needed by the claims.) -/
def runOrStart (st : RunnerState) (initRet : Int) :
    Except (RunnerErr × RunnerState) RunnerState :=
  if st.selfref then Except.error (RunnerErr.alreadySelfref, st)
  else
    let st1 := { st with asyncDataBound := true, selfref := true }
    if initRet ≠ 0 then Except.error (RunnerErr.uvAsyncInitFailed, st1)
    else Except.ok { st1 with registered := true }

/-- Model of `Runner::SuspendOn` (addon.cc:272-278): under the mutex it
first calls `uv_async_send` — throwing on a nonzero return — and only then
runs `suspended.push_back(std::move(func))`.  On a throw the `Except.error`
payload is the state at that moment: unchanged, because the append has not
happened yet. -/
def suspendOn (st : RunnerState) (c : Closure) (sendRet : Int) :
    Except RunnerState RunnerState :=
  if sendRet ≠ 0 then Except.error st
  else Except.ok { st with suspended := st.suspended ++ [c] }

end Runner

/-- C8: if the self reference is already set when `Runner::RunOrStart` is
invoked again on the same object, it throws the `already_selfref` hard fault
with the state unchanged — before binding `async.data`, overwriting the self
reference, or registering anything with libuv. -/
theorem claim8_double_selfref_fault (st : Runner.RunnerState) (r : Int)
    (h : st.selfref = true) :
    Runner.runOrStart st r
      = Except.error (Runner.RunnerErr.alreadySelfref, st) := by
  simp [Runner.runOrStart, h]

theorem claim8_double_selfref_fault_witness :
    ({ selfref := true, asyncDataBound := true, registered := true,
       suspended := [] } : Runner.RunnerState).selfref = true
    ∧ Runner.runOrStart
        { selfref := true, asyncDataBound := true, registered := true,
          suspended := [] } 0
      = Except.error (Runner.RunnerErr.alreadySelfref,
          { selfref := true, asyncDataBound := true, registered := true,
            suspended := [] }) :=
  ⟨rfl, claim8_double_selfref_fault _ 0 rfl⟩

/-- C9: when `uv_async_send` reports failure inside `Runner::SuspendOn`, the
error is thrown with the suspended list unchanged — the closure is not
appended, because the signal is issued before the append (second conjunct:
in SuspendOn's action order the signal precedes the append). -/
theorem claim9_suspendOn_error_unchanged (st : Runner.RunnerState)
    (c : Closure) (r : Int) (h : r ≠ 0) :
    Runner.suspendOn st c r = Except.error st
    ∧ List.indexOf SuspendStep.signalWake suspendOnSteps
        < List.indexOf SuspendStep.appendClosure suspendOnSteps :=
  ⟨by simp [Runner.suspendOn, h], by decide⟩

theorem claim9_suspendOn_error_unchanged_witness :
    (1 : Int) ≠ 0
    ∧ (Runner.suspendOn
        { selfref := true, asyncDataBound := true, registered := true,
          suspended := [] } (Closure.user 7) 1
        = Except.error
          { selfref := true, asyncDataBound := true, registered := true,
            suspended := [] }
      ∧ List.indexOf SuspendStep.signalWake suspendOnSteps
          < List.indexOf SuspendStep.appendClosure suspendOnSteps) :=
  ⟨by decide, claim9_suspendOn_error_unchanged _ (Closure.user 7) 1 (by decide)⟩

namespace NettestWrap

/-- Configuration accumulated on a `Runner` by the NettestWrap setters
before the test is started: inputs, file paths, options, verbosity, and the
registered callbacks (each callback modelled by a numeric identifier). -/
structure RunnerCfg where
  inputs : List String
  inputFilepaths : List String
  errorFilepath : Option String
  outputFilepath : Option String
  options : List (String × String)
  verbosity : Nat
  beginCb : Option Nat
  endCb : Option Nat
  entryCb : Option Nat
  eventCb : Option Nat
  logCb : Option Nat
  progressCb : Option Nat
  completeCb : Option Nat
deriving DecidableEq, Repr

/-- The fresh `Runner` installed by `NettestWrap::New` (addon.cc): no
inputs, no file paths, no options, default verbosity, no callbacks. -/
def newRunnerCfg : RunnerCfg :=
  { inputs := [], inputFilepaths := [], errorFilepath := none,
    outputFilepath := none, options := [], verbosity := 0,
    beginCb := none, endCb := none, entryCb := none, eventCb := none,
    logCb := none, progressCb := none, completeCb := none }

/-- State of a NettestWrap object: its `runner` smart pointer, which
`RunOrStart` swaps out (leaving `none`). -/
structure WrapState where
  runner : Option RunnerCfg
deriving DecidableEq, Repr

/-- The two errors NettestWrap methods raise via `Nan::ThrowError`. -/
inductive WrapErr where
  | invalidArgCount
  | alreadyRunning
deriving DecidableEq, Repr

/-- Model of `NettestWrap::SetValue` (addon.cc:582-597), the funnel every
setter and callback-registration method goes through: it first checks the
argument count (`info.Length() != argc`), then checks `!This(info)->runner`
— raising "cannot modify object after Run() or Start() was called" — and
only then applies the mutation `next` to the runner.  The returned pair is
the object state afterwards and the raised error, if any. -/
def setValue (argc : Nat) (st : WrapState) (nargs : Nat)
    (next : RunnerCfg → RunnerCfg) : WrapState × Option WrapErr :=
  if nargs ≠ argc then (st, some WrapErr.invalidArgCount)
  else
    match st.runner with
    | none => (st, some WrapErr.alreadyRunning)
    | some r => ({ runner := some (next r) }, none)

/-- Model of `NettestWrap::RunOrStart` (addon.cc:611-630), the funnel behind
`Run()` (argc = 0) and `Start()` (argc = 1): it performs the same two checks
as `SetValue`, then swaps the `runner` field with an empty one, sets the
completion callback when argc ≥ 1, and hands the extracted runner (returned
here as the second component) to `Runner::RunOrStart`. -/
def runOrStart (argc : Nat) (st : WrapState) (nargs : Nat) (cb : Nat) :
    (WrapState × Option RunnerCfg) × Option WrapErr :=
  if nargs ≠ argc then ((st, none), some WrapErr.invalidArgCount)
  else
    match st.runner with
    | none => ((st, none), some WrapErr.alreadyRunning)
    | some r =>
        let r' := if 1 ≤ argc then { r with completeCb := some cb } else r
        (({ runner := none }, some r'), none)

end NettestWrap

/-- C10: once `Run()`/`Start()` has succeeded on a NettestWrap object — which
swaps its internal `runner` pointer out — every subsequent `SetValue`-based
setter or callback-registration call and every subsequent `Run()`/`Start()`
call raises an error and leaves the object state unchanged. -/
theorem claim10_frozen_after_run (st : NettestWrap.WrapState)
    (a n cb a2 n2 cb2 : Nat)
    (f2 : NettestWrap.RunnerCfg → NettestWrap.RunnerCfg)
    (r : NettestWrap.RunnerCfg) (hr : st.runner = some r) (hn : n = a) :
    (NettestWrap.runOrStart a st n cb).2 = none
    ∧ (NettestWrap.runOrStart a st n cb).1.1.runner = none
    ∧ (NettestWrap.setValue a2 (NettestWrap.runOrStart a st n cb).1.1 n2 f2).1
        = (NettestWrap.runOrStart a st n cb).1.1
    ∧ ((NettestWrap.setValue a2 (NettestWrap.runOrStart a st n cb).1.1 n2 f2).2).isSome
        = true
    ∧ (NettestWrap.runOrStart a2 (NettestWrap.runOrStart a st n cb).1.1 n2 cb2).1.1
        = (NettestWrap.runOrStart a st n cb).1.1
    ∧ ((NettestWrap.runOrStart a2 (NettestWrap.runOrStart a st n cb).1.1 n2 cb2).2).isSome
        = true := by
  subst hn
  have h1 : NettestWrap.runOrStart n st n cb
      = (({ runner := none },
          some (if 1 ≤ n then { r with completeCb := some cb } else r)), none) := by
    simp [NettestWrap.runOrStart, hr]
  rw [h1]
  by_cases hc : n2 = a2
  · subst hc
    simp [NettestWrap.setValue, NettestWrap.runOrStart]
  · simp [NettestWrap.setValue, NettestWrap.runOrStart, hc]

theorem claim10_frozen_after_run_witness :
    ({ runner := some NettestWrap.newRunnerCfg } : NettestWrap.WrapState).runner
        = some NettestWrap.newRunnerCfg
    ∧ (0 : Nat) = 0
    ∧ ((NettestWrap.runOrStart 0 { runner := some NettestWrap.newRunnerCfg } 0 0).2 = none
      ∧ (NettestWrap.runOrStart 0 { runner := some NettestWrap.newRunnerCfg } 0 0).1.1.runner = none
      ∧ (NettestWrap.setValue 1
          (NettestWrap.runOrStart 0 { runner := some NettestWrap.newRunnerCfg } 0 0).1.1 1 id).1
        = (NettestWrap.runOrStart 0 { runner := some NettestWrap.newRunnerCfg } 0 0).1.1
      ∧ ((NettestWrap.setValue 1
          (NettestWrap.runOrStart 0 { runner := some NettestWrap.newRunnerCfg } 0 0).1.1 1 id).2).isSome
        = true
      ∧ (NettestWrap.runOrStart 1
          (NettestWrap.runOrStart 0 { runner := some NettestWrap.newRunnerCfg } 0 0).1.1 1 0).1.1
        = (NettestWrap.runOrStart 0 { runner := some NettestWrap.newRunnerCfg } 0 0).1.1
      ∧ ((NettestWrap.runOrStart 1
          (NettestWrap.runOrStart 0 { runner := some NettestWrap.newRunnerCfg } 0 0).1.1 1 0).2).isSome
        = true) :=
  ⟨rfl, rfl,
   claim10_frozen_after_run { runner := some NettestWrap.newRunnerCfg }
     0 0 0 1 1 0 id NettestWrap.newRunnerCfg rfl rfl⟩

end MKNode
